import Mathlib

/-!
Verification of the tag-collector pipeline (`html_tag_collector/collector.py`)
and the Common Crawl manager (`common_crawler/crawler.py`) against their
specification.  Python strings are modelled as `List Char`, machine-level
response objects as a record of the fields the code reads, exceptions as an
`Except` layer, and the external network / browser / parser as explicit
oracle parameters.
-/

namespace DSI

/-- Python strings, modelled as lists of characters. -/
abbrev PyStr := List Char

/-- Python substring containment: `needle in hay` on `str`. -/
def hasSub (needle : PyStr) : PyStr → Bool
  | [] => needle.isEmpty
  | c :: rest => needle.isPrefixOf (c :: rest) || hasSub needle rest

/-- Python `str.startswith`. -/
def pyStartsWith (p s : PyStr) : Bool := p.isPrefixOf s

/-- Python `str.removesuffix`. -/
def pyRemoveSuffix (suf s : PyStr) : PyStr :=
  if suf.isSuffixOf s then s.take (s.length - suf.length) else s

/-- The Python exception classes the collector's handlers distinguish.
`baseError` stands for `BaseException`s (such as `CancelledError`) that an
`except Exception` clause does not catch. -/
inductive PyExc
  | sslError
  | connectionError
  | locationParseError
  | readTimeout
  | attributeError
  | typeError
  | valueError
  | otherError
  | baseError
deriving DecidableEq

/-- A `requests`/`requests_html` response as far as the collector reads it:
status code, body, headers, and the `.html` attribute of session responses.
`content = none` models a response whose payload was never set — a fresh
`requests.Response()` (as built on the filter's discard path) has `raw =
None`, so its `.content` property yields Python `None` and `len(content)`
raises `TypeError`.  Such a response also has no usable `.html`
(`html = none`). -/
structure Response where
  status_code : Nat
  content : Option PyStr
  headers : List (PyStr × PyStr)
  html : Option PyStr
deriving DecidableEq

/-- `requests.Response.ok`: false exactly when `raise_for_status` raises,
i.e. when `400 ≤ status_code < 600`; any other status (including ones
above 599) is `ok`. -/
def respOk (r : Response) : Bool :=
  !(decide (400 ≤ r.status_code) && decide (r.status_code < 600))

/-- Case-insensitive header lookup (`requests` headers are a case-insensitive
dict); `none` corresponds to Python's `KeyError`. -/
def lookupHeader (k : PyStr) (hs : List (PyStr × PyStr)) : Option PyStr :=
  (hs.find? (fun p => p.1.map Char.toLower == k.map Char.toLower)).map (·.2)

/-- The content-type blacklist of `response_valid` (substring match). -/
def filteredTypes : List PyStr :=
  ["pdf", "excel", "msword", "image", "rtf", "zip", "octet", "csv", "json"].map String.toList

def blacklisted (ct : PyStr) : Bool := filteredTypes.any (fun t => hasSub t ct)

/-- Whether an optional declared content type matches the blacklist (the
middle clause of the discard condition; `None` never matches). -/
def ctBlacklistB (ct : Option PyStr) : Bool :=
  match ct with
  | some c => blacklisted c
  | none => false

/-- The discard condition of `response_valid` (collector.py 200-210) for a
present response whose payload `body` was fetched, with Python's `and`/`or`
precedence made explicit. -/
def discardCondB (body : PyStr) (r : Response) (content_type : Option PyStr) : Bool :=
  decide (10000000 < body.length) || ctBlacklistB content_type || !respOk r

/-- The reduced response built on discard: a fresh `requests.Response()` with
only `status_code` copied over — payload `None`, empty headers, no `.html`. -/
def reducedResponse (code : Nat) : Response := ⟨code, none, [], none⟩

/-- Whether the response is present but payload-less (its `content` is
Python `None`). -/
def respPayloadNone (response : Option Response) : Bool :=
  match response with
  | some r => r.content.isNone
  | none => false

/-- `response_valid` (collector.py 186-218), with Python's left-to-right
short-circuit evaluation: for a present response the size clause evaluates
`len(response.content)` first, raising `TypeError` when the payload is
`None`; for an absent response the size and status clauses are skipped, and
the discard branch itself evaluates `response.status_code`, raising
`AttributeError` on `None`. -/
def response_valid (response : Option Response) (content_type : Option PyStr) :
    Except PyExc (Option Response) :=
  match response with
  | some r =>
    match r.content with
    | none => .error .typeError
    | some body =>
      if discardCondB body r content_type then .ok (some (reducedResponse r.status_code))
      else .ok (some r)
  | none =>
    if ctBlacklistB content_type then .error .attributeError
    else .ok none

/-- Value-level form of `response_valid` on its non-raising inputs. -/
def response_valid_total (response : Option Response) (content_type : Option PyStr) :
    Option Response :=
  match response with
  | some r =>
    match r.content with
    | none => none
    | some body =>
      if discardCondB body r content_type then some (reducedResponse r.status_code)
      else some r
  | none => none

/-- One fetch outcome: the url's index plus its (possibly discarded or
absent) response — the dictionary returned by `get_response`. -/
structure FetchResult where
  index : Nat
  response : Option Response
deriving DecidableEq

/-- A response actually returned by `session.get`: the session consumes the
body, so its payload is always bytes (never the `None` of a bare
`requests.Response()`). -/
structure FetchedResponse where
  status_code : Nat
  content : PyStr
  headers : List (PyStr × PyStr)
  html : Option PyStr
deriving DecidableEq

def FetchedResponse.toResponse (r : FetchedResponse) : Response :=
  ⟨r.status_code, some r.content, r.headers, r.html⟩

/-- What each `session.get` attempt would do for one url: the first attempt,
the `verify=False` retry after an SSL error, and the https-substitution retry
after a connection error.  Each may return a fetched response or raise. -/
structure FetchEnv where
  first : Except PyExc FetchedResponse
  sslRetry : Except PyExc FetchedResponse
  httpsRetry : Except PyExc FetchedResponse

/-- The response bound to the local `response` when control reaches the
`finally` block of `get_response` (collector.py 141-170): every exception
path of the try/except ladder — including a retry itself raising, an
uncaught `BaseException`, or the `url[4]` subscript failing on a short or
`None` url — leaves either a fetched response or `None`. -/
def rawResponse (env : FetchEnv) (url : Option PyStr) : Option FetchedResponse :=
  match env.first with
  | .ok r => some r
  | .error .sslError =>
    match env.sslRetry with
    | .ok r => some r
    | .error _ => none
  | .error .connectionError =>
    match url with
    | none => none
    | some u =>
      if h : 4 < u.length then
        if u.get ⟨4, h⟩ = 's' then none
        else
          match env.httpsRetry with
          | .ok r => some r
          | .error _ => none
      else none
  | .error _ => none

/-- `get_response` (collector.py 125-183): strip a trailing `.json`, attempt
the fetch with its per-exception retries, then in `finally` read the
content type and pass the response through `response_valid`; the `return`
inside `finally` swallows any pending exception, so the coroutine can only
fail if `response_valid` itself raises there. -/
def get_response (env : FetchEnv) (url : Option PyStr) (index : Nat) :
    Except PyExc FetchResult :=
  let url' := url.map (pyRemoveSuffix ".json".toList)
  let response := (rawResponse env url').map FetchedResponse.toResponse
  let content_type := response.bind (fun r => lookupHeader "content-type".toList r.headers)
  (response_valid response content_type).map (fun r => ⟨index, r⟩)

/-- Value-level counterpart of `get_response`. -/
def get_response_val (env : FetchEnv) (url : Option PyStr) (index : Nat) : FetchResult :=
  let url' := url.map (pyRemoveSuffix ".json".toList)
  let response := (rawResponse env url').map FetchedResponse.toResponse
  let content_type := response.bind (fun r => lookupHeader "content-type".toList r.headers)
  ⟨index, response_valid_total response content_type⟩

/-- The task-spawning loop of `run_get_response` (collector.py 115-119):
one task per url, carrying its enumeration index. -/
def run_go (envs : Nat → FetchEnv) : Nat → List (Option PyStr) → List (Except PyExc FetchResult)
  | _, [] => []
  | i, u :: us => get_response (envs i) u i :: run_go envs (i + 1) us

/-- `run_get_response` (collector.py 101-122). -/
def run_get_response (envs : Nat → FetchEnv) (urls : List (Option PyStr)) :
    List (Except PyExc FetchResult) :=
  run_go envs 0 urls

def runFetch_go (envs : Nat → FetchEnv) : Nat → List (Option PyStr) → List FetchResult
  | _, [] => []
  | i, u :: us => get_response_val (envs i) u i :: runFetch_go envs (i + 1) us

/-- The batch's fetch results in dispatch order; the results the event loop
actually delivers are a permutation of these (completion order is
arbitrary). -/
def runFetchResults (envs : Nat → FetchEnv) (urls : List (Option PyStr)) : List FetchResult :=
  runFetch_go envs 0 urls

/-- Comparison key of `results.sort(key=lambda d: d["index"])`. -/
def idxLe (a b : FetchResult) : Prop := a.index ≤ b.index

instance : DecidableRel idxLe := fun a b => Nat.decLe a.index b.index

instance : IsTotal FetchResult idxLe := ⟨fun a b => Nat.le_total a.index b.index⟩

instance : IsTrans FetchResult idxLe := ⟨fun _ _ _ h1 h2 => Nat.le_trans h1 h2⟩

def idxLt (a b : FetchResult) : Prop := a.index < b.index

instance : IsAntisymm FetchResult idxLt :=
  ⟨fun _ _ h1 h2 => absurd h2 (Nat.lt_asymm h1)⟩

/-- `results.sort(key=lambda d: d["index"])`, modelled by a stable sort on
the index key. -/
def pySortByIndex (l : List FetchResult) : List FetchResult := List.insertionSort idxLe l

/-- The `urls_and_responses` list of `process_urls` (collector.py 72-75):
results are sorted by index, then `enumerate` pairs the i-th sorted result
with `urls[i]`. -/
def process_urls_pairs (completed : List FetchResult) (urls : List (Option PyStr)) :
    List (Nat × Option PyStr × Option Response) :=
  List.zipWith (fun u r => (r.index, u, r.response)) urls (pySortByIndex completed)

/-- The batch slicing of `process_in_batches` (collector.py 509-513):
`chunk bs l = [l[0:bs], l[bs:2*bs], ...]`.  The fuel `l.length` dominates
the number of batches whenever `0 < bs`. -/
def chunkGo (bs : Nat) : Nat → List α → List (List α)
  | 0, _ => []
  | _, [] => []
  | fuel + 1, a :: l => (a :: l).take bs :: chunkGo bs fuel ((a :: l).drop bs)

def chunk (bs : Nat) (l : List α) : List (List α) := chunkGo bs l.length l

/-- One batch's output rows in their final (sorted) order. -/
def batch_rows (env : Nat → FetchEnv) (urls : List (Option PyStr)) :
    List (Nat × Option PyStr × Option Response) :=
  List.zipWith (fun u r => (r.index, u, r.response)) urls (runFetchResults env urls)

/-- `process_in_batches` (collector.py 487-527): the batches' outputs
concatenated in batch order; `envsPB b` is batch `b`'s fetch environment. -/
def cumulative_rows (envsPB : Nat → Nat → FetchEnv) (bs : Nat) (urls : List (Option PyStr)) :
    List (Nat × Option PyStr × Option Response) :=
  ((chunk bs urls).enum.map (fun p => batch_rows (envsPB p.1) p.2)).flatten

/-- A render task: at which poll count (if ever) `task.done()` becomes true,
and what awaiting the completed task does (`.ok h` = rendered html written
back into `res.html`, `.error` = a swallowed rendering-engine error). -/
structure RenderTask where
  doneAt : Option Nat
  result : Except PyExc PyStr

def taskDone (tk : RenderTask) (t : Nat) : Bool :=
  match tk.doneAt with
  | some n => decide (n ≤ t)
  | none => false

/-- The polling loop of `render_js` (collector.py 242-249): `t` counts
completed `asyncio.sleep(0.1)` calls (the Python `time_elapsed`); the loop
exits when the task is done, or cancels it and breaks once `t > 150`.
Returns (number of sleeps, whether the task was cancelled).  The fuel 151
bounds the iterations the Python loop can make. -/
def pollLoopGo (done : Nat → Bool) : Nat → Nat → Nat × Bool
  | 0, t => (t, false)
  | fuel + 1, t =>
    if done t then (t, false)
    else if 150 < t + 1 then (t + 1, true)
    else pollLoopGo done fuel (t + 1)

def pollLoop (done : Nat → Bool) : Nat × Bool := pollLoopGo done 151 0

/-- One entry of `urls_and_responses`. -/
structure UrlResponse where
  index : Nat
  url : Option PyStr
  response : Option Response
deriving DecidableEq

/-- One iteration of the `render_js` loop (collector.py 228-262) on one item.
`task = none` models `asyncio.create_task(res.html.arender())` raising the
`AttributeError` that the code catches with `continue` (a bare
`requests.Response` has no `.html`).  A cancelled or failed render leaves
the pre-render response untouched; a completed render overwrites
`res.html`. -/
def render_js_item (task : Option RenderTask) (item : UrlResponse) : UrlResponse :=
  match item.response with
  | none => item
  | some r =>
    if !respOk r then item
    else
      match task with
      | none => item
      | some tk =>
        if (pollLoop (taskDone tk)).2 then item
        else
          match tk.result with
          | .ok h => { item with response := some { r with html := some h } }
          | .error _ => item

/-- Word-count automaton: counts the maximal runs of non-whitespace
characters; `inWord` records whether the previous character was part of a
word.  `wcAux false` models Python's `len(s.split())`. -/
def wcAux (inWord : Bool) : PyStr → Nat
  | [] => 0
  | c :: cs =>
    if c.isWhitespace then wcAux false cs
    else (if inWord then 0 else 1) + wcAux true cs

/-- `len(s.split())`: the number of whitespace-separated words of `s`. -/
def wordCount (s : PyStr) : Nat := wcAux false s

/-- The automaton state after consuming `s` starting from state `b`. -/
def wcState (b : Bool) (s : PyStr) : Bool := s.foldl (fun _ c => !c.isWhitespace) b

/-- The accumulation loop of `get_div_text` (collector.py 448-455) over the
texts of the page's `<div>` elements: a non-empty text is appended whole
(plus a trailing space) only when it keeps the word count within 500; the
first non-empty text that would overflow stops the loop. -/
def get_div_text_go : List PyStr → PyStr → PyStr
  | [], acc => acc
  | t :: rest, acc =>
    if t = [] then get_div_text_go rest acc
    else if wordCount acc + wordCount t ≤ 500 then get_div_text_go rest (acc ++ t ++ [' '])
    else acc

/-- `get_div_text` (collector.py 436-460): accumulate div texts, then
hard-truncate to `MAX_WORDS * 10 = 5000` characters. -/
def get_div_text (divs : List PyStr) : PyStr :=
  (get_div_text_go divs []).take 5000

/-- Characters `urllib.parse` removes from a url before splitting it
(tab, carriage return, line feed). -/
def urlScrub (s : PyStr) : PyStr :=
  s.filter (fun c => !(c == '\t' || c == '\r' || c == '\n'))

def isSchemeChar (c : Char) : Bool := c.isAlphanum || c == '+' || c == '-' || c == '.'

/-- The scheme test of `urllib.parse.urlsplit`: the text before the first
`:` must be nonempty, start with a letter and consist of scheme characters;
returns what follows that colon. -/
def schemeRest (l : PyStr) : Option PyStr :=
  let pre := l.takeWhile (fun c => c != ':')
  if pre.length = l.length then none
  else
    match pre with
    | [] => none
    | c :: _ =>
      if c.isAlpha && pre.all isSchemeChar then some (l.drop (pre.length + 1)) else none

def hasScheme (l : PyStr) : Bool := (schemeRest l).isSome

def isStopChar (c : Char) : Bool := c == '/' || c == '?' || c == '#'

/-- `urllib.parse._splitparams`: `urlparse` separates `;params` from the
path's last segment. -/
def splitParams (p : PyStr) : PyStr :=
  if p.contains ';' then
    if p.contains '/' then
      let seg := (p.reverse.takeWhile (fun c => c != '/')).reverse
      if seg.contains ';' then
        p.take (p.length - seg.length) ++ seg.takeWhile (fun c => c != ';')
      else p
    else p.takeWhile (fun c => c != ';')
  else p

/-- When the remainder starts with `//`, split off the netloc (which runs to
the first `/`, `?` or `#`) and return what follows it; `urlsplit` raises
`ValueError("Invalid IPv6 URL")` when the netloc contains an unbalanced
square bracket. -/
def netlocStrip (u : PyStr) : Except PyExc PyStr :=
  if u.take 2 = ['/', '/'] then
    let netloc := (u.drop 2).takeWhile (fun c => !isStopChar c)
    if netloc.contains '[' && !netloc.contains ']'
        || netloc.contains ']' && !netloc.contains '[' then .error .valueError
    else .ok ((u.drop 2).dropWhile (fun c => !isStopChar c))
  else .ok u

/-- The `.path` of `urllib.parse.urlparse`: scrub unsafe bytes, strip a
valid scheme, strip a `//netloc` part (raising `ValueError` on an unbalanced
bracket there), cut the fragment and the query, and split off `;params`. -/
def pyUrlPath (url : PyStr) : Except PyExc PyStr :=
  (netlocStrip ((schemeRest (urlScrub url)).getD (urlScrub url))).map
    (fun u2 => splitParams ((u2.takeWhile (fun c => c != '#')).takeWhile (fun c => c != '?')))

/-- `get_url` (collector.py 310-330): prepend `https://` when the url does
not start with `"http"`, take `urlparse(new_url).path[1:]` (the first
character of the path, whatever it is), and drop one trailing slash.
`urlparse`'s `ValueError` propagates (no handler in `get_url` or its
callers). -/
def get_url (url : PyStr) : Except PyExc (PyStr × PyStr) :=
  (pyUrlPath (if !pyStartsWith "http".toList url then "https://".toList ++ url else url)).map
    (fun p0 =>
      (url, if (p0.drop 1).getLast? = some '/' then (p0.drop 1).dropLast else p0.drop 1))

/-- C9's urlPath as the claim words it: normalize (prepend `https://` when
the url lacks a scheme, strip a trailing `.json`), take the path, strip a
single leading slash and a single trailing slash. -/
def claim_urlPath (url : PyStr) : Except PyExc PyStr :=
  let norm := pyRemoveSuffix ".json".toList (if hasScheme url then url else "https://".toList ++ url)
  (pyUrlPath norm).map (fun p0 =>
    let p1 := if p0.head? = some '/' then p0.drop 1 else p0
    if p1.getLast? = some '/' then p1.dropLast else p1)

/-- The amended urlPath: like the claim's but with the scheme test replaced
by the code's `startswith("http")`, no `.json` stripping, and `path[1:]`
instead of "strip one leading slash". -/
def amended_urlPath (url : PyStr) : Except PyExc PyStr :=
  (pyUrlPath (if pyStartsWith "http".toList url then url else "https://".toList ++ url)).map
    (fun p0 =>
      if (p0.drop 1).getLast? = some '/' then (p0.drop 1).dropLast else p0.drop 1)

/-- Python `s.split()` (the words themselves); fuel-recursive with fuel
`s.length`, which dominates the recursion depth. -/
def pyWordsGo (nonws : Char → Bool) : Nat → PyStr → List PyStr
  | 0, _ => []
  | _ + 1, [] => []
  | fuel + 1, c :: cs =>
    if nonws c then (c :: cs.takeWhile nonws) :: pyWordsGo nonws fuel (cs.dropWhile nonws)
    else pyWordsGo nonws fuel cs

def pyWords (s : PyStr) : List PyStr := pyWordsGo (fun c => !c.isWhitespace) s.length s

/-- `remove_excess_whitespace` (collector.py 463-472):
`" ".join(s.split()).strip()` (the final strip is a no-op on the join). -/
def remove_excess_whitespace (s : PyStr) : PyStr := List.intercalate [' '] (pyWords s)

/-- A parsed page as far as the extractor reads it: the `<title>` string
(when present with a string child), the description meta tag (`none` =
absent, `some none` = present without a `content` attribute), the header
elements per level h1..h6 as (extracted text, has-anchor-child) pairs, and
the texts of all `<div>` elements in document order. -/
structure Soup where
  titleStr : Option PyStr
  metaDesc : Option (Option PyStr)
  headerEls : List (List (PyStr × Bool))
  divs : List PyStr

/-- `get_html_title` (collector.py 381-395). -/
def get_html_title (soup : Soup) : PyStr :=
  match soup.titleStr with
  | some t => remove_excess_whitespace t
  | none => []

/-- `get_meta_description` (collector.py 398-413); `some none` is the
`KeyError` branch. -/
def get_meta_description (soup : Soup) : PyStr :=
  match soup.metaDesc with
  | none => []
  | some none => []
  | some (some c) => remove_excess_whitespace c

/-- `json.dumps(..., ensure_ascii=False)` string escaping, restricted to the
quote and backslash escapes. -/
def jsonEscape (s : PyStr) : PyStr :=
  s.flatMap (fun c => if c == '"' || c == '\\' then ['\\', c] else [c])

def jsonDumps (xs : List PyStr) : PyStr :=
  '[' :: (List.intercalate ", ".toList (xs.map (fun s => '"' :: (jsonEscape s ++ ['"']))) ++ [']'])

/-- The per-level body of `get_header_tags` (collector.py 426-431): drop
headers containing an anchor child, keep the others' text, JSON-encode. -/
def headerContent (els : List (PyStr × Bool)) : PyStr :=
  jsonDumps ((els.filter (fun p => !p.2)).map (·.1))

/-- `verify_response` (collector.py 333-352). -/
def verify_response (res : Option Response) : Bool × Int :=
  match res with
  | none => (false, -1)
  | some r => (respOk r, (r.status_code : Int))

/-- Selection of the markup-parser kind from the declared content type
(collector.py 355-378). -/
def parserKindFor (r : Response) : Option PyStr :=
  match lookupHeader "content-type".toList r.headers with
  | none => none
  | some ct =>
    if hasSub "html".toList ct then some "lxml".toList
    else if hasSub "xml".toList ct then some "lxml-xml".toList
    else none

/-- The feature record.  Modelled from the spec: the `Tags` dataclass lives
in `DataClassTags.py`, which is not under `src/`; spec §3 (ExtractedRecord)
gives its fields and their defaults (empty strings, `-1` http code). -/
structure Tags where
  index : Nat
  url : PyStr
  url_path : PyStr := []
  html_title : PyStr := []
  meta_description : PyStr := []
  root_page_title : PyStr := []
  http_response : Int := -1
  h1 : PyStr := []
  h2 : PyStr := []
  h3 : PyStr := []
  h4 : PyStr := []
  h5 : PyStr := []
  h6 : PyStr := []
  div_text : PyStr := []
deriving DecidableEq

/-- `parse_response` (collector.py 265-307).  `getTitle` stands for the
external `RootURLCache.get_title` (spec: best-effort title or empty
string); `soupOf parserKind html` stands for `BeautifulSoup(html, ...)`,
with `none` modelling the caught `ParserRejectedMarkup` / `AssertionError`
/ `AttributeError`.  With a `None` url, `get_url` evaluates
`None.startswith(...)`, raising an `AttributeError` that no handler in
`parse_response` catches. -/
def parse_response (getTitle : PyStr → PyStr) (soupOf : PyStr → PyStr → Option Soup)
    (ur : UrlResponse) : Except PyExc Tags :=
  match ur.url with
  | none => .error .attributeError
  | some u =>
    match get_url u with
    | .error e => .error e
    | .ok p =>
      let t0 : Tags :=
        { index := ur.index, url := p.1, url_path := p.2,
          root_page_title := remove_excess_whitespace (getTitle p.1) }
      match verify_response ur.response with
      | (false, code) => .ok { t0 with http_response := code }
      | (true, code) =>
        let t1 := { t0 with http_response := code }
        match ur.response with
        | none => .ok t1
        | some res =>
          match parserKindFor res with
          | none => .ok t1
          | some pk =>
            match res.html with
            | none => .ok t1
            | some htmlStr =>
              match soupOf pk htmlStr with
              | none => .ok t1
              | some soup =>
                .ok { t1 with
                        html_title := get_html_title soup,
                        meta_description := get_meta_description soup,
                        h1 := headerContent (soup.headerEls.getD 0 []),
                        h2 := headerContent (soup.headerEls.getD 1 []),
                        h3 := headerContent (soup.headerEls.getD 2 []),
                        h4 := headerContent (soup.headerEls.getD 3 []),
                        h5 := headerContent (soup.headerEls.getD 4 []),
                        h6 := headerContent (soup.headerEls.getD 5 []),
                        div_text := get_div_text soup.divs }

/-- A Common Crawl index record as the crawler reads it (only
`record['url']` is consumed). -/
structure CCRecord where
  url : PyStr
deriving DecidableEq

/-- `UrlResults` as constructed in `crawl` (crawler.py 57-63); the dataclass
itself lives in `common_crawler.utils`, outside `src/`. -/
structure UrlResults where
  index : PyStr
  url : PyStr
  search_term : PyStr
  page : Int
  keyword : PyStr
deriving DecidableEq

/-- `CommonCrawler.get_urls_with_keyword` (crawler.py 134-136). -/
def get_urls_with_keyword (records : List CCRecord) (keyword : PyStr) : List PyStr :=
  (records.filter (fun r => hasSub keyword r.url)).map (·.url)

def takeDigits : Nat → PyStr → Option PyStr
  | 0, s => some s
  | _ + 1, [] => none
  | n + 1, c :: cs => if c.isDigit then takeDigits n cs else none

def dropPrefixOpt (p s : PyStr) : Option PyStr :=
  if p.isPrefixOf s then some (s.drop p.length) else none

/-- Success of `re.match(r'CC-MAIN-\d{4}-\d{2}', crawl_id)` — a prefix
match; anything may follow the matched text. -/
def validCrawlId (s : PyStr) : Bool :=
  match dropPrefixOpt "CC-MAIN-".toList s with
  | none => false
  | some r1 =>
    match takeDigits 4 r1 with
    | none => false
    | some ('-' :: r3) => (takeDigits 2 r3).isSome
    | some _ => false

abbrev CacheKey := PyStr × PyStr × PyStr

/-- The page loop of `crawl` (crawler.py 48-65): every page in the range is
searched; pages with no records are skipped without moving the cursor;
otherwise the keyword-matching urls are appended and
`cache_object.last_page` is advanced to that page. -/
def crawlPages (search : PyStr → Int → Option (List CCRecord))
    (crawl_id search_term keyword : PyStr) :
    List Int → Int → List UrlResults × Int
  | [], lp => ([], lp)
  | p :: ps, lp =>
    match search search_term p with
    | none => crawlPages search crawl_id search_term keyword ps lp
    | some [] => crawlPages search crawl_id search_term keyword ps lp
    | some (r :: rs) =>
      let urls := get_urls_with_keyword (r :: rs) keyword
      let here := urls.map (fun u => ⟨crawl_id, u, search_term, p, keyword⟩)
      let rest := crawlPages search crawl_id search_term keyword ps p
      (here ++ rest.1, rest.2)

def cacheUpdate (cache : List (CacheKey × Int)) (k : CacheKey) (v : Int) :
    List (CacheKey × Int) :=
  (k, v) :: cache.filter (fun p => decide (p.1 ≠ k))

/-- `CommonCrawlerManager.crawl` (crawler.py 32-70).  The cache manager
(`common_crawler.cache`) is not under `src/`; it is modelled from the spec:
a durable cursor per `(crawl_id, search_term, keyword)`, with a missing key
yielding a fresh cursor at `freshLast`.  The third returned component is
the log of index searches performed, in order.  An invalid crawl id raises
`ValueError` on the method's first statement, before any search or cache
access. -/
def crawl (search : PyStr → Int → Option (List CCRecord))
    (cache : List (CacheKey × Int)) (freshLast : Int)
    (crawl_id search_term keyword : PyStr) (num_pages : Nat) :
    Except PyExc (List UrlResults) × List (CacheKey × Int) × List (PyStr × Int) :=
  if !validCrawlId crawl_id then (.error .valueError, cache, [])
  else
    let key : CacheKey := (crawl_id, search_term, keyword)
    let lp0 := ((cache.find? (fun p => decide (p.1 = key))).map (·.2)).getD freshLast
    let start := lp0 + 1
    let pages := (List.range num_pages).map (fun k => start + (k : Int))
    let res := crawlPages search crawl_id search_term keyword pages lp0
    (.ok res.1, cacheUpdate cache key res.2, pages.map (fun p => (search_term, p)))

def exceptIsOk : Except ε α → Bool
  | .ok _ => true
  | .error _ => false

/-- C3's discard condition as the claim words it, reading "success code" as
a 2xx status. -/
def claim_discard (r : Response) (ct : Option PyStr) : Prop :=
  (∃ body, r.content = some body ∧ 10000000 < body.length)
  ∨ (∃ c, ct = some c ∧ blacklisted c = true)
  ∨ ¬(200 ≤ r.status_code ∧ r.status_code < 300)

/-- A fetch environment where every attempt raises a generic exception. -/
def cexEnv : FetchEnv :=
  ⟨.error .otherError, .error .otherError, .error .otherError⟩

instance {ε : Type u} {α : Type v} [DecidableEq ε] [DecidableEq α] :
    DecidableEq (Except ε α) := fun x y =>
  match x, y with
  | .ok a, .ok b =>
    if h : a = b then isTrue (congrArg Except.ok h)
    else isFalse (fun hh => h (Except.ok.inj hh))
  | .error a, .error b =>
    if h : a = b then isTrue (congrArg Except.error h)
    else isFalse (fun hh => h (Except.error.inj hh))
  | .ok _, .error _ => isFalse (fun hh => Except.noConfusion hh)
  | .error _, .ok _ => isFalse (fun hh => Except.noConfusion hh)

theorem response_valid_some_ok (r : Response) (body : PyStr) (ct : Option PyStr)
    (h : r.content = some body) :
    response_valid (some r) ct
      = .ok (some (if discardCondB body r ct then reducedResponse r.status_code else r)) := by
  obtain ⟨code, co, hdrs, htm⟩ := r
  change co = some body at h
  subst h
  unfold response_valid
  by_cases hc : discardCondB body ⟨code, some body, hdrs, htm⟩ ct <;> simp [hc]

theorem response_valid_of_headers (fr : Option FetchedResponse) :
    response_valid (fr.map FetchedResponse.toResponse)
        ((fr.map FetchedResponse.toResponse).bind
          (fun r => lookupHeader "content-type".toList r.headers))
      = .ok (response_valid_total (fr.map FetchedResponse.toResponse)
          ((fr.map FetchedResponse.toResponse).bind
            (fun r => lookupHeader "content-type".toList r.headers))) := by
  cases fr with
  | none => rfl
  | some r =>
    show (if discardCondB r.content r.toResponse
            (lookupHeader "content-type".toList r.headers)
          then Except.ok (some (reducedResponse r.toResponse.status_code))
          else Except.ok (some r.toResponse))
        = Except.ok (if discardCondB r.content r.toResponse
            (lookupHeader "content-type".toList r.headers)
          then some (reducedResponse r.toResponse.status_code)
          else some r.toResponse)
    split <;> rfl

theorem get_response_eq_ok (env : FetchEnv) (url : Option PyStr) (index : Nat) :
    get_response env url index = .ok (get_response_val env url index) := by
  simp only [get_response, get_response_val]
  rw [response_valid_of_headers]
  rfl

theorem runFetch_go_map_index (envs : Nat → FetchEnv) :
    ∀ (us : List (Option PyStr)) (i : Nat),
      (runFetch_go envs i us).map FetchResult.index = List.range' i us.length := by
  intro us
  induction us with
  | nil => intro i; rfl
  | cons u us ih =>
    intro i
    simp only [runFetch_go, List.map_cons, List.length_cons, List.range'_succ, ih (i + 1)]
    rfl

theorem runFetch_go_length (envs : Nat → FetchEnv) (us : List (Option PyStr)) (i : Nat) :
    (runFetch_go envs i us).length = us.length := by
  have h := congrArg List.length (runFetch_go_map_index envs us i)
  simpa using h

theorem run_go_eq_map_ok (envs : Nat → FetchEnv) :
    ∀ (us : List (Option PyStr)) (i : Nat),
      run_go envs i us = (runFetch_go envs i us).map Except.ok := by
  intro us
  induction us with
  | nil => intro i; rfl
  | cons u us ih =>
    intro i
    simp only [run_go, runFetch_go, List.map_cons, get_response_eq_ok, ih (i + 1)]

/-- C1: for every input list of N urls (and whatever the fetch attempts and
their retries do, including raising), `run_get_response` yields exactly N
outcome dictionaries, none of them a propagated exception, and the i-th
outcome carries index i — so the index set is exactly `[0, N)`, with no
index duplicated or dropped. -/
theorem c1_total_coverage (envs : Nat → FetchEnv) (urls : List (Option PyStr)) :
    (run_get_response envs urls).map (Except.map FetchResult.index)
      = (List.range urls.length).map Except.ok := by
  unfold run_get_response
  rw [run_go_eq_map_ok, List.range_eq_range', ← runFetch_go_map_index envs urls 0]
  simp [List.map_map, Function.comp_def, Except.map]

theorem runFetch_pairwise_lt (envs : Nat → FetchEnv) (us : List (Option PyStr)) :
    (runFetchResults envs us).Pairwise (fun a b => a.index < b.index) := by
  have hp : ((runFetchResults envs us).map FetchResult.index).Pairwise (· < ·) := by
    unfold runFetchResults
    rw [runFetch_go_map_index]
    exact List.pairwise_lt_range' 0 us.length
  exact List.pairwise_map.mp hp

/-- With all indices distinct, sorting any completion-order permutation of the
fetch results by index recovers the dispatch order. -/
theorem pySort_restores (envs : Nat → FetchEnv) (us : List (Option PyStr))
    (shuffled : List FetchResult) (hp : shuffled.Perm (runFetchResults envs us)) :
    pySortByIndex shuffled = runFetchResults envs us := by
  have hperm : (pySortByIndex shuffled).Perm (runFetchResults envs us) :=
    (List.perm_insertionSort idxLe shuffled).trans hp
  have hsortedLe : List.Sorted idxLe (pySortByIndex shuffled) :=
    List.sorted_insertionSort idxLe shuffled
  have hcanNe : (runFetchResults envs us).Pairwise (fun a b => a.index ≠ b.index) :=
    (runFetch_pairwise_lt envs us).imp Nat.ne_of_lt
  have hne : (pySortByIndex shuffled).Pairwise (fun a b => a.index ≠ b.index) :=
    (hperm.pairwise_iff (fun h => Ne.symm h)).mpr hcanNe
  have hlt : List.Sorted idxLt (pySortByIndex shuffled) :=
    (hsortedLe.and hne).imp (fun h => Nat.lt_of_le_of_ne h.1 h.2)
  have hcanLt : List.Sorted idxLt (runFetchResults envs us) :=
    (runFetch_pairwise_lt envs us).imp (fun h => h)
  exact List.eq_of_perm_of_sorted hperm hlt hcanLt

theorem zipWith_rows_url : ∀ (us : List (Option PyStr)) (rs : List FetchResult),
    us.length = rs.length →
    (List.zipWith (fun u r => (r.index, u, r.response)) us rs).map (fun t => t.2.1) = us := by
  intro us
  induction us with
  | nil => intro rs _; rfl
  | cons u us ih =>
    intro rs h
    cases rs with
    | nil => simp at h
    | cons r rs => simp [ih rs (by simpa using h)]

theorem zipWith_rows_index : ∀ (us : List (Option PyStr)) (rs : List FetchResult),
    us.length = rs.length →
    (List.zipWith (fun u r => (r.index, u, r.response)) us rs).map (fun t => t.1)
      = rs.map FetchResult.index := by
  intro us
  induction us with
  | nil =>
    intro rs h
    cases rs with
    | nil => rfl
    | cons r rs => simp at h
  | cons u us ih =>
    intro rs h
    cases rs with
    | nil => simp at h
    | cons r rs => simp [ih rs (by simpa using h)]

theorem chunkGo_flatten {α : Type _} (bs : Nat) (hbs : 0 < bs) :
    ∀ (fuel : Nat) (l : List α), l.length ≤ fuel → (chunkGo bs fuel l).flatten = l := by
  intro fuel
  induction fuel with
  | zero =>
    intro l h
    have : l = [] := List.eq_nil_of_length_eq_zero (Nat.le_zero.mp h)
    subst this
    rfl
  | succ fuel ih =>
    intro l h
    cases l with
    | nil => rfl
    | cons a l =>
      have hlen : ((a :: l).drop bs).length ≤ fuel := by
        simp only [List.length_drop, List.length_cons]
        simp only [List.length_cons] at h
        omega
      simp only [chunkGo, List.flatten_cons, ih _ hlen, List.take_append_drop]

theorem chunk_flatten {α : Type _} (bs : Nat) (hbs : 0 < bs) (l : List α) :
    (chunk bs l).flatten = l :=
  chunkGo_flatten bs hbs l.length l (Nat.le_refl _)

theorem batch_rows_url (env : Nat → FetchEnv) (ub : List (Option PyStr)) :
    (batch_rows env ub).map (fun t => t.2.1) = ub :=
  zipWith_rows_url ub (runFetchResults env ub) (runFetch_go_length env ub 0).symm

theorem cumulative_rows_urls (envsPB : Nat → Nat → FetchEnv) (bs : Nat) (hbs : 0 < bs)
    (urls : List (Option PyStr)) :
    (cumulative_rows envsPB bs urls).map (fun t => t.2.1) = urls := by
  unfold cumulative_rows
  rw [List.map_flatten, List.map_map]
  have hmaps : (chunk bs urls).enum.map
        ((List.map (fun t => t.2.1)) ∘ (fun p => batch_rows (envsPB p.1) p.2))
      = (chunk bs urls).enum.map Prod.snd := by
    apply List.map_congr_left
    intro p _
    exact batch_rows_url (envsPB p.1) p.2
  rw [hmaps]
  rw [List.enum, List.enumFrom_map_snd]
  exact chunk_flatten bs hbs urls

/-- C2: for every batch, sorting the fetch results (delivered in arbitrary
completion order) by their index restores dispatch order, so the i-th row of
the batch's table pairs the i-th input url with the result fetched for it
(row i carries index i); and the batch outputs, concatenated in batch order,
list the original urls in input order. -/
theorem c2_order_restoration (bs : Nat) (env : Nat → FetchEnv)
    (us urls : List (Option PyStr)) (shuffled : List FetchResult)
    (envsPB : Nat → Nat → FetchEnv) (hbs : 0 < bs)
    (hp : shuffled.Perm (runFetchResults env us)) :
    pySortByIndex shuffled = runFetchResults env us
    ∧ (process_urls_pairs shuffled us).map (fun t => t.2.1) = us
    ∧ (process_urls_pairs shuffled us).map (fun t => t.1) = List.range us.length
    ∧ (cumulative_rows envsPB bs urls).map (fun t => t.2.1) = urls := by
  have hsort := pySort_restores env us shuffled hp
  have hlen : us.length = (runFetchResults env us).length :=
    (runFetch_go_length env us 0).symm
  refine ⟨hsort, ?_, ?_, cumulative_rows_urls envsPB bs hbs urls⟩
  · unfold process_urls_pairs
    rw [hsort]
    exact zipWith_rows_url us (runFetchResults env us) hlen
  · unfold process_urls_pairs
    rw [hsort, zipWith_rows_index us (runFetchResults env us) hlen]
    unfold runFetchResults
    rw [runFetch_go_map_index, List.range_eq_range']

theorem c2_w :
    pySortByIndex [⟨1, none⟩, ⟨0, none⟩]
        = runFetchResults (fun _ => cexEnv) [some ['a'], some ['b']]
    ∧ (process_urls_pairs [⟨1, none⟩, ⟨0, none⟩] [some ['a'], some ['b']]).map
        (fun t => t.2.1) = [some ['a'], some ['b']]
    ∧ (process_urls_pairs [⟨1, none⟩, ⟨0, none⟩] [some ['a'], some ['b']]).map
        (fun t => t.1) = List.range [some ('a' : Char), some 'b'].length
    ∧ (cumulative_rows (fun _ _ => cexEnv) 1 [some ['c']]).map (fun t => t.2.1)
        = [some ['c']] :=
  c2_order_restoration 1 (fun _ => cexEnv) [some ['a'], some ['b']] [some ['c']]
    [⟨1, none⟩, ⟨0, none⟩] (fun _ _ => cexEnv) (by decide) (by decide)

/-- C3 counterexample: a 304 response (not a success code in the 2xx sense)
with a non-empty body and no blacklisted content type is returned unmodified,
payload intact — the code discards on `not response.ok`, which is false only
for statuses 400-599. -/
theorem c3_cex :
    claim_discard ⟨304, some ['x'], [], none⟩ none
    ∧ response_valid (some ⟨304, some ['x'], [], none⟩) none
        = .ok (some ⟨304, some ['x'], [], none⟩)
    ∧ (⟨304, some ['x'], [], none⟩ : Response).content = some ['x'] :=
  ⟨Or.inr (Or.inr (by decide)), by decide, rfl⟩

/-- C3 (amended): on a present response whose payload was fetched, the filter
returns a reduced response carrying only the original status code exactly
when the body exceeds 10,000,000 bytes, or the declared content type matches
the blacklist, or the status is an error status (400-599, where requests'
`ok` is false; statuses outside that band, e.g. 999, are kept) — and the
response unmodified otherwise. -/
theorem c3_filter_characterization (r : Response) (body : PyStr) (ct : Option PyStr)
    (h : r.content = some body) :
    response_valid (some r) ct
      = .ok (some (if discardCondB body r ct then reducedResponse r.status_code else r))
    ∧ (discardCondB body r ct = true ↔
        (10000000 < body.length
         ∨ (∃ c, ct = some c ∧ blacklisted c = true)
         ∨ (400 ≤ r.status_code ∧ r.status_code < 600))) := by
  refine ⟨response_valid_some_ok r body ct h, ?_⟩
  cases ct with
  | none =>
    simp [discardCondB, ctBlacklistB, respOk]
  | some c =>
    by_cases hb : blacklisted c <;> simp [discardCondB, ctBlacklistB, respOk, hb]

theorem c3_w :
    response_valid (some ⟨304, some ['x'], [], none⟩) none
      = .ok (some (if discardCondB ['x'] ⟨304, some ['x'], [], none⟩ none
                   then reducedResponse (304 : Nat) else ⟨304, some ['x'], [], none⟩))
    ∧ (discardCondB ['x'] ⟨304, some ['x'], [], none⟩ none = true ↔
        (10000000 < (['x'] : PyStr).length
         ∨ (∃ c, (none : Option PyStr) = some c ∧ blacklisted c = true)
         ∨ (400 ≤ (304 : Nat) ∧ (304 : Nat) < 600))) :=
  c3_filter_characterization ⟨304, some ['x'], [], none⟩ ['x'] none rfl

/-- C4 counterexample: with the response absent and a blacklisted content
type, the discard branch evaluates `response.status_code` on `None` and
raises `AttributeError`. -/
theorem c4_cex :
    response_valid none (some "application/pdf".toList) = .error .attributeError := by
  decide

/-- C4 (amended): the filter raises in exactly two situations — a present
response whose payload is `None` (a bare `requests.Response()`), where the
size clause evaluates `len(None)` and raises `TypeError`; and an absent
response with a blacklisted content type, where the discard branch evaluates
`response.status_code` on `None` and raises `AttributeError`.  In every
other combination each absent value makes its own rule non-discarding and
the function returns normally — `None` when the response is `None`. -/
theorem c4_filter_absence (resp : Option Response) (ct : Option PyStr) :
    exceptIsOk (response_valid resp ct)
      = !(respPayloadNone resp || resp.isNone && ctBlacklistB ct)
    ∧ response_valid none ct
        = (if ctBlacklistB ct then .error .attributeError else .ok none) := by
  constructor
  · cases resp with
    | some r =>
      cases hc : r.content with
      | none => simp [response_valid, hc, exceptIsOk, respPayloadNone]
      | some body =>
        rw [response_valid_some_ok r body ct hc]
        simp [exceptIsOk, respPayloadNone, hc]
    | none =>
      by_cases hb : ctBlacklistB ct <;>
        simp [response_valid, hb, exceptIsOk, respPayloadNone]
  · by_cases hb : ctBlacklistB ct <;> simp [response_valid, hb]

/-- C5: a render task that never completes is cancelled after 151 sleeps of
0.1 time units — i.e. by the 15-second deadline plus at most one polling
interval — the cancellation is swallowed, and the item (hence its pre-render
response content) is left unchanged for downstream extraction. -/
theorem c5_render_timeout (item : UrlResponse) (r : Response) (tk : RenderTask)
    (hresp : item.response = some r) (hok : respOk r = true) (hnever : tk.doneAt = none) :
    pollLoop (taskDone tk) = (151, true)
    ∧ 150 ≤ (pollLoop (taskDone tk)).1
    ∧ (pollLoop (taskDone tk)).1 ≤ 150 + 1
    ∧ render_js_item (some tk) item = item := by
  have hdone : taskDone tk = fun _ => false := by
    funext t
    simp [taskDone, hnever]
  have hpoll : pollLoop (taskDone tk) = (151, true) := by
    rw [hdone]
    decide
  refine ⟨hpoll, by rw [hpoll]; decide, by rw [hpoll], ?_⟩
  unfold render_js_item
  rw [hresp]
  simp [hok, hpoll]

theorem c5_w :
    pollLoop (taskDone ⟨none, .ok []⟩) = (151, true)
    ∧ 150 ≤ (pollLoop (taskDone ⟨none, .ok []⟩)).1
    ∧ (pollLoop (taskDone ⟨none, .ok []⟩)).1 ≤ 150 + 1
    ∧ render_js_item (some ⟨none, .ok []⟩) ⟨0, some ['u'], some ⟨200, some [], [], some []⟩⟩
        = ⟨0, some ['u'], some ⟨200, some [], [], some []⟩⟩ :=
  c5_render_timeout ⟨0, some ['u'], some ⟨200, some [], [], some []⟩⟩ ⟨200, some [], [], some []⟩
    ⟨none, .ok []⟩ rfl (by decide) rfl

/-- C6: the claim (and spec §4.4/§7) promise `parse_response` never raises,
even for a `None` url; but on an outcome whose url is `None`, `get_url`
evaluates `None.startswith("http")` and the resulting `AttributeError`
propagates out of `parse_response`, aborting the batch. -/
theorem c6_parse_none_url :
    parse_response (fun _ => []) (fun _ _ => none) ⟨0, none, none⟩
      = .error .attributeError := rfl

/-- C7 counterexample: the filter discards a 404 response with a payload,
producing the reduced response; applying the filter a second time to that
reduced response does not return it — the reduced `requests.Response()` has
payload `None`, so the size clause evaluates `len(None)` and raises
`TypeError`, refuting "returns that response unchanged ... without raising". -/
theorem c7_cex :
    response_valid (some ⟨404, some ['x'], [], none⟩) none
        = .ok (some (reducedResponse 404))
    ∧ response_valid (some (reducedResponse 404)) none = .error .typeError :=
  ⟨by decide, rfl⟩

/-- C7 (amended): the filter is not idempotent on discarded responses —
re-applying it to the reduced response it produced raises `TypeError` for
every status code and every declared content type, because the reduced
response's payload is `None` and the size clause evaluates `len(None)`
before any other rule. -/
theorem c7_refilter_raises (code : Nat) (ct : Option PyStr) :
    response_valid (some (reducedResponse code)) ct = .error .typeError := rfl

theorem wcState_cons (b : Bool) (c : Char) (cs : PyStr) :
    wcState b (c :: cs) = wcState (!c.isWhitespace) cs := rfl

theorem wcState_append (b : Bool) (xs ys : PyStr) :
    wcState b (xs ++ ys) = wcState (wcState b xs) ys := by
  simp [wcState]

theorem wcAux_append (xs : PyStr) : ∀ (b : Bool) (ys : PyStr),
    wcAux b (xs ++ ys) = wcAux b xs + wcAux (wcState b xs) ys := by
  induction xs with
  | nil => intro b ys; simp [wcAux, wcState]
  | cons c cs ih =>
    intro b ys
    by_cases hw : c.isWhitespace
    · simp [wcAux, hw, wcState_cons, ih false ys]
    · simp [wcAux, hw, wcState_cons, ih true ys, Nat.add_assoc]

theorem wcAux_take : ∀ (l : PyStr) (n : Nat) (b : Bool),
    wcAux b (l.take n) ≤ wcAux b l := by
  intro l
  induction l with
  | nil => intro n b; simp [wcAux]
  | cons c cs ih =>
    intro n b
    cases n with
    | zero => simp [wcAux]
    | succ n =>
      simp only [List.take_succ_cons, wcAux]
      by_cases hw : c.isWhitespace
      · simp only [hw, if_true]
        exact ih n false
      · simp only [hw, if_false]
        exact Nat.add_le_add_left (ih n true) _

theorem wcState_concat_space (b : Bool) (xs : PyStr) :
    wcState b (xs ++ [' ']) = false := by
  rw [wcState_append]
  simp [wcState]

/-- Invariant of the div-text loop: an accumulator within the word budget
whose automaton state is closed (it is empty or ends in the appended space)
keeps the final word count within 500. -/
theorem get_div_text_go_wc : ∀ (divs : List PyStr) (acc : PyStr),
    wcAux false acc ≤ 500 → wcState false acc = false →
    wcAux false (get_div_text_go divs acc) ≤ 500 := by
  intro divs
  induction divs with
  | nil => intro acc h _; exact h
  | cons t rest ih =>
    intro acc h hs
    by_cases ht : t = []
    · simp only [get_div_text_go, ht, if_true]
      exact ih acc h hs
    · by_cases hg : wordCount acc + wordCount t ≤ 500
      · have hsp : ∀ b : Bool, wcAux b [' '] = 0 := by intro b; simp [wcAux]
        have hwc : wcAux false (acc ++ t ++ [' ']) = wordCount acc + wordCount t := by
          rw [wcAux_append (acc ++ t) false [' '], hsp, wcAux_append acc false t, hs]
          rfl
        have hst : wcState false (acc ++ t ++ [' ']) = false :=
          wcState_concat_space false (acc ++ t)
        simp only [get_div_text_go, ht, hg, if_true, if_false]
        exact ih (acc ++ t ++ [' ']) (hwc ▸ hg) hst
      · simp only [get_div_text_go, ht, hg, if_true, if_false]
        exact h

/-- C8: for every page, `divText` has at most 500 whitespace-separated words
and at most 5000 characters (covering in particular a page whose single div
text is one 50,000-character word); and the loop appends a non-empty div
text whole when it fits the 500-word budget and stops at the first one that
would overflow it. -/
theorem c8_div_text_truncation (divs : List PyStr) (c : Char) (t : PyStr)
    (acc : PyStr) (rest : List PyStr) :
    wordCount (get_div_text divs) ≤ 500
    ∧ (get_div_text divs).length ≤ 5000
    ∧ get_div_text_go ((c :: t) :: rest) acc
        = (if wordCount acc + wordCount (c :: t) ≤ 500
           then get_div_text_go rest (acc ++ (c :: t) ++ [' '])
           else acc) := by
  refine ⟨?_, ?_, ?_⟩
  · unfold get_div_text wordCount
    exact le_trans (wcAux_take _ 5000 false)
      (get_div_text_go_wc divs [] (by decide) rfl)
  · unfold get_div_text
    have := List.length_take 5000 (get_div_text_go divs [])
    omega
  · simp [get_div_text_go]

theorem dropWhile_head_not (p : Char → Bool) : ∀ (l : PyStr),
    l.dropWhile p = [] ∨ ∃ c cs, l.dropWhile p = c :: cs ∧ p c = false := by
  intro l
  induction l with
  | nil => exact Or.inl rfl
  | cons c cs ih =>
    by_cases hc : p c
    · simpa [List.dropWhile_cons, hc] using ih
    · right
      exact ⟨c, cs, by simp [List.dropWhile_cons, hc], by simp [hc]⟩

theorem takeWhile_length_lt (q : Char → Bool) : ∀ (l : PyStr) (x : Char),
    x ∈ l → q x = false → (l.takeWhile q).length < l.length := by
  intro l
  induction l with
  | nil => intro x hx; cases hx
  | cons c cs ih =>
    intro x hx hq
    by_cases hc : q c
    · have hxcs : x ∈ cs := by
        cases hx with
        | head => rw [hc] at hq; cases hq
        | tail _ h => exact h
      simp only [List.takeWhile_cons, hc, if_true, List.length_cons]
      exact Nat.succ_lt_succ (ih x hxcs hq)
    · simp only [List.takeWhile_cons, hc, if_false, List.length_cons, List.length_nil]
      exact Nat.succ_pos _

/-- Splitting `;params` off a path that starts with a slash leaves it empty
or still starting with a slash. -/
theorem splitParams_slash (p : PyStr) (hp : p.head? = some '/') :
    splitParams p = [] ∨ (splitParams p).head? = some '/' := by
  cases p with
  | nil => simp at hp
  | cons c cs =>
    have hc : c = '/' := by simpa using hp
    subst hc
    unfold splitParams
    by_cases h1 : ('/' :: cs).contains ';'
    · have h2 : ('/' :: cs).contains '/' = true := by simp
      simp only [h1, h2, if_true]
      by_cases h3 : ((('/' :: cs).reverse.takeWhile (fun c => c != '/')).reverse).contains ';'
      · simp only [h3, if_true]
        right
        have hlt : ((('/' :: cs).reverse.takeWhile (fun c => c != '/')).reverse).length
            < ('/' :: cs).length := by
          have hx : ('/' : Char) ∈ ('/' :: cs).reverse := by simp
          have := takeWhile_length_lt (fun c => c != '/') (('/' :: cs).reverse) '/' hx (by simp)
          simpa using this
        obtain ⟨k, hk⟩ : ∃ k, ('/' :: cs).length
            - ((('/' :: cs).reverse.takeWhile (fun c => c != '/')).reverse).length = k + 1 := by
          refine ⟨('/' :: cs).length
            - ((('/' :: cs).reverse.takeWhile (fun c => c != '/')).reverse).length - 1, ?_⟩
          omega
        rw [hk]
        simp [List.take_succ_cons]
      · simp only [h3, if_false]
        right
        rfl
    · simp only [h1, if_false]
      right
      rfl

/-- The path built from what remains after a successful netloc split is
empty or starts with a slash. -/
theorem path_shape (w : PyStr) :
    splitParams (((w.dropWhile (fun c => !isStopChar c)).takeWhile
        (fun c => c != '#')).takeWhile (fun c => c != '?')) = []
    ∨ (splitParams (((w.dropWhile (fun c => !isStopChar c)).takeWhile
        (fun c => c != '#')).takeWhile (fun c => c != '?'))).head? = some '/' := by
  rcases dropWhile_head_not (fun c => !isStopChar c) w with hv | ⟨c, cs, hv, hc⟩
  · rw [hv]
    left
    rfl
  · rw [hv]
    have hstop : isStopChar c = true := by simpa using hc
    have hcases : (c = '/' ∨ c = '?') ∨ c = '#' := by
      simpa [isStopChar] using hstop
    rcases hcases with (h | h) | h
    · subst h
      have ht1 : (('/' :: cs).takeWhile (fun c => c != '#'))
          = '/' :: cs.takeWhile (fun c => c != '#') := by
        simp [List.takeWhile_cons]
      rw [ht1]
      have ht2 : (('/' :: cs.takeWhile (fun c => c != '#')).takeWhile (fun c => c != '?'))
          = '/' :: (cs.takeWhile (fun c => c != '#')).takeWhile (fun c => c != '?') := by
        simp [List.takeWhile_cons]
      rw [ht2]
      exact splitParams_slash _ rfl
    · subst h
      have ht1 : (('?' :: cs).takeWhile (fun c => c != '#'))
          = '?' :: cs.takeWhile (fun c => c != '#') := by
        simp [List.takeWhile_cons]
      rw [ht1]
      left
      rfl
    · subst h
      left
      rfl

/-- Any url of the shape `https://...` either makes `urlparse` raise
`ValueError` (unbalanced bracket in the netloc) or parses to a path that is
empty or starts with a slash, so `path[1:]` removes exactly the leading
slash whenever a path is produced at all. -/
theorem pyUrlPath_https (u : PyStr) :
    (pyUrlPath ("https://".toList ++ u)).toOption.elim True
      (fun p => p = [] ∨ p.head? = some '/') := by
  have h1 : urlScrub ("https://".toList ++ u) = "https://".toList ++ urlScrub u := by
    unfold urlScrub
    rw [List.filter_append]
    rfl
  have h2 : pyUrlPath ("https://".toList ++ u)
      = (netlocStrip ('/' :: '/' :: urlScrub u)).map
          (fun u2 => splitParams ((u2.takeWhile (fun c => c != '#')).takeWhile
            (fun c => c != '?'))) := by
    unfold pyUrlPath
    rw [h1]
    rfl
  have h3 : netlocStrip ('/' :: '/' :: urlScrub u)
      = (if ((urlScrub u).takeWhile (fun c => !isStopChar c)).contains '['
              && !(((urlScrub u).takeWhile (fun c => !isStopChar c)).contains ']')
            || ((urlScrub u).takeWhile (fun c => !isStopChar c)).contains ']'
              && !(((urlScrub u).takeWhile (fun c => !isStopChar c)).contains '[')
         then Except.error PyExc.valueError
         else Except.ok ((urlScrub u).dropWhile (fun c => !isStopChar c))) := rfl
  rw [h2, h3]
  by_cases hbr : (((urlScrub u).takeWhile (fun c => !isStopChar c)).contains '['
        && !(((urlScrub u).takeWhile (fun c => !isStopChar c)).contains ']')
      || ((urlScrub u).takeWhile (fun c => !isStopChar c)).contains ']'
        && !(((urlScrub u).takeWhile (fun c => !isStopChar c)).contains '[')) = true
  · rw [if_pos hbr]
    exact trivial
  · rw [if_neg hbr]
    exact path_shape (urlScrub u)

/-- C9 counterexample.  First url: the code's `urlPath` keeps a trailing
`.json` (the suffix is only stripped on the fetch path, not in `get_url`),
the claim's does not.  Second url: a scheme-less url that happens to start
with `"http"` is not prepended, parses with the hostname inside the path,
and loses its first character (an `h`, not a slash).  Third url: an
unbalanced bracket lands in the netloc, `urlparse` raises
`ValueError("Invalid IPv6 URL")`, and `get_url` raises instead of yielding
any path at all. -/
theorem c9_cex :
    (get_url "example.com/data.json".toList).map Prod.snd
        ≠ claim_urlPath "example.com/data.json".toList
    ∧ (get_url "http.example.com/a/".toList).map Prod.snd
        ≠ claim_urlPath "http.example.com/a/".toList
    ∧ get_url "exa[mple.com/x".toList = .error .valueError := by
  decide

/-- C9 (amended): whenever `urlparse` succeeds (it raises `ValueError` on an
unbalanced bracket in a `//`-netloc, and that propagates out of `get_url`),
`urlPath` equals the path component of the url with `https://` prepended
exactly when the url does not start with `"http"` (no `.json` stripping),
with the path's first character dropped and a single trailing slash removed;
for the prepended urls any successfully parsed path is empty or starts with
a slash, so the dropped character is precisely the single leading slash. -/
theorem c9_url_path (url : PyStr) :
    get_url url = (amended_urlPath url).map (fun p => (url, p))
    ∧ (pyUrlPath ("https://".toList ++ url)).toOption.elim True
        (fun p => p = [] ∨ p.head? = some '/') := by
  constructor
  · have hsame : (if !pyStartsWith "http".toList url then "https://".toList ++ url else url)
        = (if pyStartsWith "http".toList url then url else "https://".toList ++ url) := by
      cases pyStartsWith "http".toList url <;> rfl
    have hnorm : ∀ (norm : PyStr),
        (pyUrlPath norm).map (fun p0 =>
          (url, if (p0.drop 1).getLast? = some '/' then (p0.drop 1).dropLast else p0.drop 1))
        = ((pyUrlPath norm).map (fun p0 =>
            if (p0.drop 1).getLast? = some '/' then (p0.drop 1).dropLast
            else p0.drop 1)).map (fun p => (url, p)) := by
      intro norm
      cases hp : pyUrlPath norm <;> simp [Except.map]
    unfold get_url amended_urlPath
    rw [hsame]
    exact hnorm _
  · exact pyUrlPath_https url

/-- C10: `crawl` raises `ValueError` exactly when the crawl id does not begin
with `CC-MAIN-` plus 4 digits, `-`, 2 digits; and when it raises it does so
before any index search and before touching the cursor cache — the search
log is empty and the cache is returned unchanged. -/
theorem c10_invalid_crawl_id (search : PyStr → Int → Option (List CCRecord))
    (cache : List (CacheKey × Int)) (freshLast : Int)
    (crawl_id search_term keyword : PyStr) (num_pages : Nat) :
    ((∃ rs, (crawl search cache freshLast crawl_id search_term keyword num_pages).1 = .ok rs)
      ↔ validCrawlId crawl_id = true)
    ∧ (validCrawlId crawl_id = false →
        crawl search cache freshLast crawl_id search_term keyword num_pages
          = (.error .valueError, cache, [])) := by
  cases h : validCrawlId crawl_id with
  | true =>
    constructor
    · unfold crawl
      simp [h]
    · intro hf
      simp [h] at hf
  | false =>
    constructor
    · unfold crawl
      simp [h]
    · intro _
      unfold crawl
      simp [h]

theorem c10_w :
    ((∃ rs, (crawl (fun _ _ => none) [] 0 "bogus".toList [] [] 0).1 = .ok rs)
      ↔ validCrawlId "bogus".toList = true)
    ∧ crawl (fun _ _ => none) [] 0 "bogus".toList [] [] 0 = (.error .valueError, [], []) :=
  ⟨(c10_invalid_crawl_id (fun _ _ => none) [] 0 "bogus".toList [] [] 0).1,
   (c10_invalid_crawl_id (fun _ _ => none) [] 0 "bogus".toList [] [] 0).2 (by decide)⟩

end DSI
